import Mathlib

/-!
Shallow embedding of the game-server simulation and session core
(`src/application.cpp`, `src/application.h`, `src/json_loader.cpp`).

Conventions used throughout:
a C++ `double` is modelled as `ℚ` in the session, event and loot layers
(only field arithmetic occurs there) and as `ℝ` in the geometric
collision-time computation `FindCollisionTime` (which takes square roots);
a `std::chrono::steady_clock::time_point` is modelled as an integer number
of milliseconds supplied by the caller; the random auth token produced by
`GenerateToken` is modelled by passing the fresh token string as an
argument; a `std::unordered_map` is modelled as an association list with
first-match lookup; the `static` id counters inside `JoinGame` and
`GenerateLootItems` are modelled as fields of the application state.
-/

namespace GameServer

/-- Lookup in an association list, mirroring `std::unordered_map::find`. -/
def mapFind {κ ν : Type} [DecidableEq κ] (k : κ) (l : List (κ × ν)) : Option ν :=
  (l.find? fun kv => decide (kv.1 = k)).map fun kv => kv.2

/-- Store through `operator[]` of `std::unordered_map`: bind `k` to `v`,
replacing any previous binding. -/
def mapInsert {κ ν : Type} [DecidableEq κ] (k : κ) (v : ν) (l : List (κ × ν)) :
    List (κ × ν) :=
  (k, v) :: l.filter fun kv => decide (kv.1 ≠ k)

/-- Remove the binding of `k`, mirroring `std::unordered_map::erase`. -/
def mapErase {κ ν : Type} [DecidableEq κ] (k : κ) (l : List (κ × ν)) :
    List (κ × ν) :=
  l.filter fun kv => decide (kv.1 ≠ k)

/-- Integer point (`model::Point`). -/
structure Point where
  x : ℤ
  y : ℤ
deriving DecidableEq

/-- Real position (`model::Position`), modelled over `ℚ`. -/
structure Position where
  x : ℚ
  y : ℚ
deriving DecidableEq

/-- Velocity (`model::Velocity`), modelled over `ℚ`. -/
structure Velocity where
  vx : ℚ
  vy : ℚ
deriving DecidableEq

/-- Facing direction of a dog (`model::Direction`). -/
inductive Direction where
  | north
  | south
  | east
  | west
deriving DecidableEq

/-- Road orientation (`model::Road::HORIZONTAL` / `VERTICAL`). -/
inductive RoadOrient where
  | horizontal
  | vertical
deriving DecidableEq

/-- Road (`model::Road`): an axis-aligned segment given by its orientation,
start point and end coordinate, as produced by `json_loader::ParseRoad`. -/
structure Road where
  orient : RoadOrient
  start : Point
  endCoord : ℤ
deriving DecidableEq

/-- Building rectangle (`model::Building`); informational only. -/
structure Building where
  pos : Point
  size : Point
deriving DecidableEq

/-- Office (`model::Office`), as produced by `json_loader::ParseOffice`. -/
structure Office where
  id : String
  pos : Point
  offset : Point
deriving DecidableEq

/-- Loot item (`model::LootItem`): numeric id, loot-type index, value and
position, as constructed in `Application::GenerateLootItems`. -/
structure LootItem where
  id : ℤ
  type : ℤ
  value : ℚ
  pos : Position
deriving DecidableEq

/-- Map (`model::Map`): immutable topology plus the mutable loot set. -/
structure GameMap where
  id : String
  name : String
  roads : List Road
  buildings : List Building
  offices : List Office
  loot : List LootItem
  dog_speed : ℚ
  bag_capacity : ℕ
deriving DecidableEq

/-- Dog (`model::Dog`): the moving avatar with its bag and score.
`model.h` is not among the provided sources; the fields follow the spec's
data model (id, owner name, map id, position, velocity, facing, bounded
ordered bag, score), with the score kept in exact arithmetic. -/
structure Dog where
  id : ℕ
  name : String
  map_id : String
  pos : Position
  vel : Velocity
  dir : Direction
  bag : List LootItem
  bag_capacity : ℕ
  score : ℚ
deriving DecidableEq

/-- Player (`model::Player`). -/
structure Player where
  id : ℕ
  name : String
  dog_id : ℕ
  map_id : String
  token : String
deriving DecidableEq

/-- Per-player metadata (`app::PlayerMetadata`). -/
structure PlayerMetadata where
  join_time : ℤ
  idle_start_time : Option ℤ
  is_retired : Bool
deriving DecidableEq

/-- Record emitted through the retirement callback
(`retirement_callback_(name, score, play_time_seconds)`). -/
structure RetiredRecord where
  name : String
  score : ℚ
  play_time_seconds : ℚ
deriving DecidableEq

/-- State owned by `app::Application` together with its `model::Game`:
the maps, the dogs and players sequences, the three session indices, the
per-player metadata, the emitted retirement records, and the id counters
that the C++ code keeps in `static` locals. -/
structure AppState where
  maps : List GameMap
  dogs : List Dog
  players : List Player
  token_index : List (String × ℕ)
  player_id_index : List (ℕ × ℕ)
  dog_id_index : List (ℕ × ℕ)
  player_metadata : List (ℕ × PlayerMetadata)
  records : List RetiredRecord
  next_dog_id : ℕ
  next_player_id : ℕ
  next_loot_id : ℤ
  dog_retirement_time_seconds : ℚ
deriving DecidableEq

/-- Lookup of a map by id (`model::Game::FindMap`, a linear search of the
maps loaded at startup). -/
def FindMap (st : AppState) (id : String) : Option GameMap :=
  st.maps.find? fun m => decide (m.id = id)

/-- Modelled from the spec: `model::Map::GetDefaultDogPosition` is not among
the provided sources; the spec fixes the default spawn to the start of the
map's first road. -/
def GetDefaultDogPosition (m : GameMap) : Position :=
  match m.roads with
  | [] => ⟨0, 0⟩
  | r :: _ => ⟨(r.start.x : ℚ), (r.start.y : ℚ)⟩

/-- Join operation (`Application::JoinGame`): validate the map id and user
name, create the dog and player, append them to the sequences, record the
three index entries at the end positions, and create fresh metadata.
The randomize-spawn configuration is taken as false (the default of the
`Application` constructor), so the default spawn position is used. -/
def JoinGame (st : AppState) (user_name map_id token : String) (now : ℤ) :
    Option ((String × ℕ) × AppState) :=
  match FindMap st map_id with
  | none => none
  | some m =>
    if user_name = "" then none
    else
      let dog_id := st.next_dog_id
      let dog : Dog :=
        ⟨dog_id, user_name, map_id, GetDefaultDogPosition m, ⟨0, 0⟩,
          Direction.north, [], m.bag_capacity, 0⟩
      let dogs := st.dogs ++ [dog]
      let player_id := st.next_player_id
      let player : Player := ⟨player_id, user_name, dog_id, map_id, token⟩
      let players := st.players ++ [player]
      some ((token, player_id),
        { st with
          dogs := dogs
          players := players
          token_index := mapInsert token (players.length - 1) st.token_index
          player_id_index := mapInsert player_id (players.length - 1) st.player_id_index
          dog_id_index := mapInsert dog_id (dogs.length - 1) st.dog_id_index
          player_metadata := mapInsert player_id ⟨now, none, false⟩ st.player_metadata
          next_dog_id := st.next_dog_id + 1
          next_player_id := st.next_player_id + 1 })

/-- Token resolution (`Application::FindPlayerByToken`): consult the token
index and then bounds-check the stored position against the players
sequence. -/
def FindPlayerByToken (st : AppState) (auth_token : String) : Option Player :=
  match mapFind auth_token st.token_index with
  | none => none
  | some i => st.players[i]?

/-- Position of a dog in the dogs sequence according to the dog-id index,
with the bounds check of `Application::FindDog`. -/
def FindDogIndex (st : AppState) (id : ℕ) : Option ℕ :=
  match mapFind id st.dog_id_index with
  | none => none
  | some i => if i < st.dogs.length then some i else none

/-- Lookup of a dog (`Application::FindDog`). -/
def FindDog (st : AppState) (id : ℕ) : Option Dog :=
  (FindDogIndex st id).bind fun i => st.dogs[i]?

/-- List query (`Application::GetPlayers`): resolve the token, then collect
every player on the same map in players-sequence order. -/
def GetPlayers (st : AppState) (auth_token : String) : List Player :=
  match FindPlayerByToken st auth_token with
  | none => []
  | some player => st.players.filter fun p => decide (p.map_id = player.map_id)

/-- State query (`Application::GetGameState`): resolve the token, then
collect every player on the same map in players-sequence order. -/
def GetGameState (st : AppState) (auth_token : String) : List Player :=
  match FindPlayerByToken st auth_token with
  | none => []
  | some player => st.players.filter fun p => decide (p.map_id = player.map_id)

/-- Dog speed of a map (`Application::GetDogSpeedForMap`), defaulting to 1
when the map is unknown. -/
def GetDogSpeedForMap (st : AppState) (map_id : String) : ℚ :=
  match FindMap st map_id with
  | none => 1
  | some m => m.dog_speed

/-- Action operation (`Application::SetPlayerAction`): look up the dog and
the map, decode the move string into a velocity and a facing, store them on
the dog, and update the idle-start time in the player metadata exactly when
the metadata exists and the player is not retired. -/
def SetPlayerAction (st : AppState) (player : Player) (move : String) (now : ℤ) :
    Bool × AppState :=
  match FindDogIndex st player.dog_id with
  | none => (false, st)
  | some di =>
    match st.dogs[di]? with
    | none => (false, st)
    | some dog =>
      match FindMap st player.map_id with
      | none => (false, st)
      | some _ =>
        let speed := GetDogSpeedForMap st player.map_id
        let parsed : Option (Velocity × Direction) :=
          if move = "L" then some (⟨-speed, 0⟩, Direction.west)
          else if move = "R" then some (⟨speed, 0⟩, Direction.east)
          else if move = "U" then some (⟨0, -speed⟩, Direction.north)
          else if move = "D" then some (⟨0, speed⟩, Direction.south)
          else if move = "" then some (⟨0, 0⟩, dog.dir)
          else none
        match parsed with
        | none => (false, st)
        | some vd =>
          let dogs := st.dogs.set di { dog with vel := vd.1, dir := vd.2 }
          let meta :=
            match mapFind player.id st.player_metadata with
            | none => st.player_metadata
            | some m =>
              if m.is_retired then st.player_metadata
              else if vd.1.vx = 0 ∧ vd.1.vy = 0 then
                match m.idle_start_time with
                | some _ => st.player_metadata
                | none =>
                  mapInsert player.id { m with idle_start_time := some now }
                    st.player_metadata
              else
                mapInsert player.id { m with idle_start_time := none }
                  st.player_metadata
          (true, { st with dogs := dogs, player_metadata := meta })

/-- Modelled from the spec: `model::Game::FindPlayer` is not among the
provided sources; the session registry locates a live player record by its
player id, here by linear search of the players sequence. -/
def GameFindPlayer (st : AppState) (pid : ℕ) : Option Player :=
  st.players.find? fun p => decide (p.id = pid)

/-- Retirement (`Application::RetirePlayer`): bail out when the metadata is
missing or already marked retired, or when the player or its dog cannot be
found; otherwise emit a record, mark the metadata retired, erase the three
index entries and excise the player and the dog from their sequences by
linear filter. -/
def RetirePlayer (st : AppState) (pid : ℕ) (now : ℤ) : AppState :=
  match mapFind pid st.player_metadata with
  | none => st
  | some m =>
    if m.is_retired then st
    else
      match GameFindPlayer st pid with
      | none => st
      | some player =>
        match FindDog st player.dog_id with
        | none => st
        | some dog =>
          { st with
            records :=
              st.records ++ [⟨player.name, dog.score, ((now - m.join_time : ℤ) : ℚ) / 1000⟩]
            player_metadata :=
              mapInsert pid { m with is_retired := true } st.player_metadata
            token_index := mapErase player.token st.token_index
            player_id_index := mapErase pid st.player_id_index
            dog_id_index := mapErase dog.id st.dog_id_index
            players := st.players.filter fun p => decide (p.id ≠ pid)
            dogs := st.dogs.filter fun d => decide (d.id ≠ dog.id) }

/-- Index-consistency check stated by the spec: every player's token and id
map to the player's position in the players sequence, and every dog's id
maps to its position in the dogs sequence. -/
def IndicesConsistent (st : AppState) : Bool :=
  (st.players.enum.all fun ip =>
    (mapFind ip.2.token st.token_index == some ip.1) &&
    (mapFind ip.2.id st.player_id_index == some ip.1)) &&
  (st.dogs.enum.all fun idd => mapFind idd.2.id st.dog_id_index == some idd.1)

/-- View of the session prescribed by the spec for both list and state
queries: empty when the token does not resolve to a player, otherwise the
players sharing the token's player's map, in players-sequence order. -/
def SpecVisiblePlayers (st : AppState) (auth_token : String) : List Player :=
  match FindPlayerByToken st auth_token with
  | none => []
  | some player => st.players.filter fun p => decide (p.map_id = player.map_id)

/-- One-map world used for the concrete scenarios: a single horizontal road
from `(0,0)` to `(5,0)`, no offices, no loot. -/
def mapM0 : GameMap :=
  { id := "m", name := "Town", roads := [⟨RoadOrient.horizontal, ⟨0, 0⟩, 5⟩],
    buildings := [], offices := [], loot := [], dog_speed := 1, bag_capacity := 3 }

/-- Fresh application state holding only `mapM0`. -/
def st0 : AppState :=
  { maps := [mapM0], dogs := [], players := [], token_index := [],
    player_id_index := [], dog_id_index := [], player_metadata := [],
    records := [], next_dog_id := 0, next_player_id := 0, next_loot_id := 0,
    dog_retirement_time_seconds := 60 }

/-- State after player A joins map `m` with token `tokA`. -/
def stA : AppState := ((JoinGame st0 "A" "m" "tokA" 0).map Prod.snd).getD st0

/-- State after player B also joins map `m` with token `tokB`. -/
def stAB : AppState := ((JoinGame stA "B" "m" "tokB" 0).map Prod.snd).getD stA

/-- State after player 0 (A) is retired out of `stAB`. -/
def stRet : AppState := RetirePlayer stAB 0 100

/-- Event type tag (`app::CollisionEvent::Type`). -/
inductive CollisionEventType where
  | itemPickup
  | officeReturn
  | itemSkip
deriving DecidableEq

/-- Collision event (`app::CollisionEvent`): the `timestamp` is the
collision parameter `t` along the dog's motion segment. -/
structure CollisionEvent where
  type : CollisionEventType
  timestamp : ℚ
  dog_id : ℕ
  item_id : Option ℤ
  item_type : Option ℤ
deriving DecidableEq

/-- Gathering of the per-tick events in `Application::ProcessDogCollisions`:
one pickup candidate per loot item of the dog's map (radius 0.3), in map
order, followed by one office-return candidate per office (radius 0.55), in
map order. The collision-parameter computation is abstracted as `ct`; its
faithful geometric definition `FindCollisionTime` lives in the real-number
layer below, and nothing in the event pipeline inspects the parameter
beyond its ordering. -/
def GatherCollisionEvents (ct : Position → Position → Position → ℚ → Option ℚ)
    (dog_id : ℕ) (loot : List LootItem) (offices : List Office)
    (start_pos end_pos : Position) : List CollisionEvent :=
  (loot.filterMap fun item =>
    (ct start_pos end_pos item.pos (3/10)).map fun t =>
      ⟨CollisionEventType.itemPickup, t, dog_id, some item.id, some item.type⟩) ++
  (offices.filterMap fun o =>
    (ct start_pos end_pos ⟨(o.pos.x : ℚ), (o.pos.y : ℚ)⟩ (11/20)).map fun t =>
      ⟨CollisionEventType.officeReturn, t, dog_id, none, none⟩)

/-- Postcondition of the `std::sort` call in
`Application::ProcessDogCollisions` with comparator
`a.timestamp < b.timestamp`: the output is some permutation of the input
that is nondecreasing in `timestamp`. C++ gives no stability guarantee for
`std::sort`, so the relative order of equal timestamps is unspecified. -/
def StdSortedBy (l l2 : List CollisionEvent) : Prop :=
  l.Perm l2 ∧ l2.Pairwise fun a b => a.timestamp ≤ b.timestamp

/-- Portion of the state read and written by the event-application loop of
`Application::ProcessDogCollisions`: the dog's bag, bag capacity and score,
and the loot set of the dog's map. -/
structure CollisionState where
  bag : List LootItem
  bag_capacity : ℕ
  score : ℚ
  loot : List LootItem
deriving DecidableEq

/-- Lookup of a loot item by id (`model::Map::FindLootItem`, linear search
exactly as in `Application::FindLootItem`). -/
def FindLootItem (loot : List LootItem) (item_id : ℤ) : Option LootItem :=
  loot.find? fun item => decide (item.id = item_id)

/-- Removal of a loot item by id (`model::Map::RemoveLootItem`). -/
def RemoveLootItem (loot : List LootItem) (item_id : ℤ) : List LootItem :=
  loot.filter fun item => decide (item.id ≠ item_id)

/-- Full-bag test (`model::Dog::IsBagFull`). Modelled from the spec:
`model.h` is not among the provided sources; the spec bounds the bag by
`len(Dog.bag) ≤ Map.bag_capacity`, so the bag is full exactly when its
length has reached the capacity. -/
def IsBagFull (st : CollisionState) : Bool :=
  decide (st.bag_capacity ≤ st.bag.length)

/-- Body of the event loop in `Application::ProcessDogCollisions`: a pickup
with a non-full bag appends the (still present) item to the bag and removes
it from the map; a pickup with a full bag does nothing; an office return
adds every bag item's value to the score and clears the bag. -/
def ApplyCollisionEvent (st : CollisionState) (e : CollisionEvent) : CollisionState :=
  match e.type with
  | CollisionEventType.itemPickup =>
    if IsBagFull st then st
    else
      match e.item_id with
      | none => st
      | some iid =>
        match FindLootItem st.loot iid with
        | none => st
        | some item =>
          { st with bag := st.bag ++ [item], loot := RemoveLootItem st.loot item.id }
  | CollisionEventType.officeReturn =>
    { st with score := st.score + (st.bag.map LootItem.value).sum, bag := [] }
  | CollisionEventType.itemSkip => st

/-- The event loop of `Application::ProcessDogCollisions`, applied to an
already sorted event list. -/
def ApplyCollisionEvents (st : CollisionState) (events : List CollisionEvent) :
    CollisionState :=
  events.foldl ApplyCollisionEvent st

/-- Total value held in a collision state: score plus bag plus map loot. -/
def TotalValue (st : CollisionState) : ℚ :=
  st.score + (st.bag.map LootItem.value).sum + (st.loot.map LootItem.value).sum

/-- The five seed items of `Application::GenerateLootItems`: consecutive
ids from the counter, loot-type index 1, value 10, positions
`(10 + 5 i, 10)`. -/
def SeedLootItems (next_id : ℤ) : List LootItem :=
  (List.range 5).map fun i : ℕ =>
    ⟨next_id + (i : ℤ), 1, 10, ⟨10 + 5 * (i : ℚ), 10⟩⟩

/-- Loot generator (`Application::GenerateLootItems`): every map whose loot
set is empty receives the five seed items, drawing ids from the process-wide
counter; other maps are untouched. Returns the updated maps and counter. -/
def GenerateLootItems : List GameMap → ℤ → List GameMap × ℤ
  | [], next_id => ([], next_id)
  | m :: ms, next_id =>
    if m.loot.isEmpty then
      let rest := GenerateLootItems ms (next_id + 5)
      ({ m with loot := m.loot ++ SeedLootItems next_id } :: rest.1, rest.2)
    else
      let rest := GenerateLootItems ms next_id
      (m :: rest.1, rest.2)

/-- The ids handed out by one `GenerateLootItems` pass, in the order they
are drawn from the counter. -/
def NewLootIds : List GameMap → ℤ → List ℤ
  | [], _ => []
  | m :: ms, next_id =>
    if m.loot.isEmpty then
      (SeedLootItems next_id).map LootItem.id ++ NewLootIds ms (next_id + 5)
    else
      NewLootIds ms next_id

/-- Membership of a position in the fattened strip of one road. Modelled
from the spec: a road strip is the axis segment grown by half-width 0.4 on
every side, and a position is on the road iff it lies in the strip. -/
def OnRoadStrip (r : Road) (p : Position) : Bool :=
  match r.orient with
  | RoadOrient.horizontal =>
    decide (min (r.start.x : ℚ) (r.endCoord : ℚ) - 2/5 ≤ p.x ∧
      p.x ≤ max (r.start.x : ℚ) (r.endCoord : ℚ) + 2/5 ∧
      (r.start.y : ℚ) - 2/5 ≤ p.y ∧ p.y ≤ (r.start.y : ℚ) + 2/5)
  | RoadOrient.vertical =>
    decide ((r.start.x : ℚ) - 2/5 ≤ p.x ∧ p.x ≤ (r.start.x : ℚ) + 2/5 ∧
      min (r.start.y : ℚ) (r.endCoord : ℚ) - 2/5 ≤ p.y ∧
      p.y ≤ max (r.start.y : ℚ) (r.endCoord : ℚ) + 2/5)

/-- Truncation toward zero, the semantics of the C++
`static_cast<int64_t>` applied to a floating value. -/
def CppTruncToInt (q : ℚ) : ℤ :=
  if 0 ≤ q then ⌊q⌋ else ⌈q⌉

/-- Row of the `retired_players` table. -/
structure RetiredPlayerRow where
  name : String
  score : ℤ
  play_time_ms : ℤ
deriving DecidableEq

/-- Append of the records sink (`db::Database::AddRetiredPlayer`): the
play-time column stores `static_cast<int64_t>(play_time_seconds * 1000.0)`,
i.e. the scaled value truncated toward zero. -/
def AddRetiredPlayer (rows : List RetiredPlayerRow) (name : String) (score : ℤ)
    (play_time_seconds : ℚ) : List RetiredPlayerRow :=
  rows ++ [⟨name, score, CppTruncToInt (play_time_seconds * 1000)⟩]

/-- Loot item used by the concrete event scenarios. -/
def lootX : LootItem := ⟨0, 1, 10, ⟨5, 0⟩⟩

/-- Office used by the concrete event scenarios. -/
def officeX : Office := ⟨"o1", ⟨5, 0⟩, ⟨0, 0⟩⟩

/-- Degenerate collision-time oracle reporting parameter `1` for every
target; it produces a tie between a pickup and an office return. -/
def ctOne : Position → Position → Position → ℚ → Option ℚ :=
  fun _ _ _ _ => some 1

/-- Events gathered for one dog passing both `lootX` and `officeX` under the
tie-producing oracle. -/
def gatheredX : List CollisionEvent :=
  GatherCollisionEvents ctOne 0 [lootX] [officeX] ⟨0, 0⟩ ⟨10, 0⟩

/-- Map with dog speed 0 for the zero-speed action scenario. -/
def mapZ : GameMap :=
  { id := "z", name := "Zero", roads := [⟨RoadOrient.horizontal, ⟨0, 0⟩, 5⟩],
    buildings := [], offices := [], loot := [], dog_speed := 0, bag_capacity := 3 }

/-- Dog of the zero-speed scenario. -/
def dogZ : Dog := ⟨0, "P", "z", ⟨0, 0⟩, ⟨0, 0⟩, Direction.north, [], 3, 0⟩

/-- Player of the zero-speed scenario. -/
def playerZ : Player := ⟨0, "P", 0, "z", "tokZ"⟩

/-- Consistent one-player session on `mapZ` whose player already has an
idle-start time recorded. -/
def stZ : AppState :=
  { maps := [mapZ], dogs := [dogZ], players := [playerZ],
    token_index := [("tokZ", 0)], player_id_index := [(0, 0)],
    dog_id_index := [(0, 0)], player_metadata := [(0, ⟨0, some 5, false⟩)],
    records := [], next_dog_id := 1, next_player_id := 1, next_loot_id := 0,
    dog_retirement_time_seconds := 60 }

/-- Map with dog speed 4 for the action-witness scenario. -/
def mapW : GameMap :=
  { id := "w", name := "West", roads := [⟨RoadOrient.horizontal, ⟨0, 0⟩, 5⟩],
    buildings := [], offices := [], loot := [], dog_speed := 4, bag_capacity := 3 }

/-- Dog of the action-witness scenario. -/
def dogW : Dog := ⟨0, "P", "w", ⟨0, 0⟩, ⟨0, 0⟩, Direction.north, [], 3, 0⟩

/-- Player of the action-witness scenario. -/
def playerW : Player := ⟨0, "P", 0, "w", "tokW"⟩

/-- Consistent one-player session on `mapW` with an idle-start time set. -/
def stW : AppState :=
  { maps := [mapW], dogs := [dogW], players := [playerW],
    token_index := [("tokW", 0)], player_id_index := [(0, 0)],
    dog_id_index := [(0, 0)], player_metadata := [(0, ⟨0, some 5, false⟩)],
    records := [], next_dog_id := 1, next_player_id := 1, next_loot_id := 0,
    dog_retirement_time_seconds := 60 }

/-- Real-valued point for the geometric layer (`model::Position` as consumed
by `Application::FindCollisionTime`, modelled over `ℝ` because the
computation takes square roots). -/
structure RPoint where
  x : ℝ
  y : ℝ

/-- Euclidean norm of a 2-vector (`std::hypot`). -/
noncomputable def hypotR (x y : ℝ) : ℝ := Real.sqrt (x * x + y * y)

/-- Collision-time computation (`Application::FindCollisionTime`): for the
segment from `start_pos` to `end_pos` and a target circle of radius
`collision_distance`, a near-zero segment reports `t = 0` iff the start is
within the radius; otherwise the target is projected onto the segment, the
closest point is clamped to the segment, candidates farther than the radius
are rejected, and the crossing distance `projection - sqrt(r² - d²)` is
accepted only when it lies within `[0, path_length]`. -/
noncomputable def FindCollisionTime (start_pos end_pos target_pos : RPoint)
    (collision_distance : ℝ) : Option ℝ :=
  let dx := end_pos.x - start_pos.x
  let dy := end_pos.y - start_pos.y
  let path_length := hypotR dx dy
  if path_length < 1e-9 then
    if hypotR (target_pos.x - start_pos.x) (target_pos.y - start_pos.y) ≤
        collision_distance then some 0 else none
  else
    let dir_x := dx / path_length
    let dir_y := dy / path_length
    let to_target_x := target_pos.x - start_pos.x
    let to_target_y := target_pos.y - start_pos.y
    let projection := to_target_x * dir_x + to_target_y * dir_y
    let closest_x := if projection ≤ 0 then start_pos.x
      else if projection ≥ path_length then end_pos.x
      else start_pos.x + dir_x * projection
    let closest_y := if projection ≤ 0 then start_pos.y
      else if projection ≥ path_length then end_pos.y
      else start_pos.y + dir_y * projection
    let distance_to_path :=
      hypotR (target_pos.x - closest_x) (target_pos.y - closest_y)
    if distance_to_path > collision_distance then none
    else
      let distance_to_collision := projection -
        Real.sqrt (collision_distance * collision_distance -
          distance_to_path * distance_to_path)
      if distance_to_collision < 0 ∨ distance_to_collision > path_length then none
      else some (distance_to_collision / path_length)

/-- Scalar projection of the target onto the motion direction, as computed
inside `FindCollisionTime` (`projection`). -/
noncomputable def segProjection (s e t : RPoint) : ℝ :=
  (t.x - s.x) * ((e.x - s.x) / hypotR (e.x - s.x) (e.y - s.y)) +
  (t.y - s.y) * ((e.y - s.y) / hypotR (e.x - s.x) (e.y - s.y))

/-- Point of the motion segment at parameter `u`. -/
noncomputable def segPoint (s e : RPoint) (u : ℝ) : RPoint :=
  ⟨s.x + u * (e.x - s.x), s.y + u * (e.y - s.y)⟩

theorem mapFind_mapInsert {κ ν : Type} [DecidableEq κ] (k : κ) (v : ν)
    (l : List (κ × ν)) : mapFind k (mapInsert k v l) = some v := by
  simp [mapFind, mapInsert]

theorem RetirePlayer_of_metadata_none (st : AppState) (pid : ℕ) (now : ℤ)
    (h : mapFind pid st.player_metadata = none) : RetirePlayer st pid now = st := by
  simp [RetirePlayer, h]

theorem RetirePlayer_of_retired (st : AppState) (pid : ℕ) (now : ℤ)
    (m : PlayerMetadata) (h : mapFind pid st.player_metadata = some m)
    (hr : m.is_retired = true) : RetirePlayer st pid now = st := by
  simp [RetirePlayer, h, hr]

/-- C9: retirement is idempotent: a second `RetirePlayer` call on the same
player id — at any later clock value — leaves the whole application state
(indices, players and dogs sequences, metadata, emitted records)
unchanged. -/
theorem RetirePlayer_idempotent (st : AppState) (pid : ℕ) (now now2 : ℤ) :
    RetirePlayer (RetirePlayer st pid now) pid now2 = RetirePlayer st pid now := by
  cases h1 : mapFind pid st.player_metadata with
  | none =>
    rw [RetirePlayer_of_metadata_none st pid now h1,
      RetirePlayer_of_metadata_none st pid now2 h1]
  | some m =>
    by_cases hr : m.is_retired
    · rw [RetirePlayer_of_retired st pid now m h1 hr,
        RetirePlayer_of_retired st pid now2 m h1 hr]
    · cases h2 : GameFindPlayer st pid with
      | none =>
        have hst : RetirePlayer st pid now = st := by
          simp [RetirePlayer, h1, hr, h2]
        rw [hst]
        simp [RetirePlayer, h1, hr, h2]
      | some player =>
        cases h3 : FindDog st player.dog_id with
        | none =>
          have hst : RetirePlayer st pid now = st := by
            simp [RetirePlayer, h1, hr, h3, h2]
          rw [hst]
          simp [RetirePlayer, h1, hr, h2, h3]
        | some dog =>
          have hsucc : RetirePlayer st pid now =
              { st with
                records :=
                  st.records ++
                    [⟨player.name, dog.score, ((now - m.join_time : ℤ) : ℚ) / 1000⟩]
                player_metadata :=
                  mapInsert pid { m with is_retired := true } st.player_metadata
                token_index := mapErase player.token st.token_index
                player_id_index := mapErase pid st.player_id_index
                dog_id_index := mapErase dog.id st.dog_id_index
                players := st.players.filter fun p => decide (p.id ≠ pid)
                dogs := st.dogs.filter fun d => decide (d.id ≠ dog.id) } := by
            simp [RetirePlayer, h1, hr, h2, h3]
          rw [hsucc]
          apply RetirePlayer_of_retired _ _ _ ({ m with is_retired := true })
          · exact mapFind_mapInsert pid _ st.player_metadata
          · rfl

/-- C10: `GetPlayers` and `GetGameState` agree on every state and token, and
both return exactly the spec's view: empty when the token does not resolve,
otherwise the players on the same map as the token's player, in
players-sequence order. -/
theorem GetPlayers_eq_GetGameState (st : AppState) (auth_token : String) :
    GetPlayers st auth_token = GetGameState st auth_token ∧
    GetPlayers st auth_token = SpecVisiblePlayers st auth_token ∧
    GetGameState st auth_token = SpecVisiblePlayers st auth_token :=
  ⟨rfl, rfl, rfl⟩

/-- C1: evaluation of the code on the failing input: after A (player 0,
token `tokA`) and B (player 1, token `tokB`) join and A is retired, B is the
only remaining player but the token index still maps `tokB` to stale
position 1, so the indices are inconsistent and the live, non-retired
player B can no longer be resolved by token. -/
theorem session_indices_stale_after_retirement :
    IndicesConsistent stRet = false ∧
    stRet.players.map Player.id = [1] ∧
    mapFind "tokB" stRet.token_index = some 1 ∧
    FindPlayerByToken stRet "tokB" = none ∧
    (mapFind 1 stRet.player_metadata).map PlayerMetadata.is_retired = some false := by
  decide

/-- C2 counterexample: equal collision parameters genuinely occur — on the
segment `(0,0)→(10,0)` a loot item at `(5,0)` (radius 0.3) and an office at
`(21/4,0)` (radius 0.55) both collide at `t = 47/100` — and for a gathered
list holding such a tied pickup-then-office pair (insertion order), the
reversed list also satisfies the full postcondition of the `std::sort` call,
so the code is free to apply the two equal-`t` events against their
insertion order: the claimed tie-breaking by insertion order (a stable
sort) is not guaranteed. -/
theorem stdsort_tie_order_counterexample :
    FindCollisionTime ⟨0, 0⟩ ⟨10, 0⟩ ⟨5, 0⟩ (3/10) =
      FindCollisionTime ⟨0, 0⟩ ⟨10, 0⟩ ⟨21/4, 0⟩ (11/20) ∧
    FindCollisionTime ⟨0, 0⟩ ⟨10, 0⟩ ⟨5, 0⟩ (3/10) = some (47/100) ∧
    gatheredX =
      [⟨CollisionEventType.itemPickup, 1, 0, some 0, some 1⟩,
       ⟨CollisionEventType.officeReturn, 1, 0, none, none⟩] ∧
    StdSortedBy gatheredX
      [⟨CollisionEventType.officeReturn, 1, 0, none, none⟩,
       ⟨CollisionEventType.itemPickup, 1, 0, some 0, some 1⟩] ∧
    ([⟨CollisionEventType.officeReturn, 1, 0, none, none⟩,
      ⟨CollisionEventType.itemPickup, 1, 0, some 0, some 1⟩] :
        List CollisionEvent) ≠ gatheredX := by
  have h100 : Real.sqrt 100 = 10 := by
    rw [show (100:ℝ) = 10 ^ 2 by norm_num]
    exact Real.sqrt_sq (by norm_num)
  have h9 : Real.sqrt (9/100) = 3/10 := by
    rw [show (9/100:ℝ) = (3/10) ^ 2 by norm_num]
    exact Real.sqrt_sq (by norm_num)
  have h121 : Real.sqrt (121/400) = 11/20 := by
    rw [show (121/400:ℝ) = (11/20) ^ 2 by norm_num]
    exact Real.sqrt_sq (by norm_num)
  have he1 : FindCollisionTime ⟨0, 0⟩ ⟨10, 0⟩ ⟨5, 0⟩ (3/10) = some (47/100) := by
    simp only [FindCollisionTime, hypotR]
    norm_num [h100, h9]
  have he2 : FindCollisionTime ⟨0, 0⟩ ⟨10, 0⟩ ⟨21/4, 0⟩ (11/20) =
      some (47/100) := by
    simp only [FindCollisionTime, hypotR]
    norm_num [h100, h121]
  exact ⟨he1.trans he2.symm, he1, by decide, ⟨by decide, by decide⟩, by decide⟩

/-- C2 (amended): the events applied by `ProcessDogCollisions` are exactly a
permutation of the gathered events (loot pickups in map order, then offices
in map order) arranged in ascending order of the collision parameter; the
sequence of collision parameters is uniquely determined even though the
relative order of events with equal parameter is not. -/
theorem collision_events_ascending
    (ct : Position → Position → Position → ℚ → Option ℚ) (dog_id : ℕ)
    (loot : List LootItem) (offices : List Office) (s e : Position)
    (l1 l2 : List CollisionEvent)
    (h1 : StdSortedBy (GatherCollisionEvents ct dog_id loot offices s e) l1)
    (h2 : StdSortedBy (GatherCollisionEvents ct dog_id loot offices s e) l2) :
    l1.Pairwise (fun a b => a.timestamp ≤ b.timestamp) ∧
    l1.map CollisionEvent.timestamp = l2.map CollisionEvent.timestamp ∧
    l1.Perm (GatherCollisionEvents ct dog_id loot offices s e) := by
  obtain ⟨hp1, hs1⟩ := h1
  obtain ⟨hp2, hs2⟩ := h2
  refine ⟨hs1, ?_, hp1.symm⟩
  have hperm : (l1.map CollisionEvent.timestamp).Perm
      (l2.map CollisionEvent.timestamp) := (hp1.symm.trans hp2).map _
  have hs1m : (l1.map CollisionEvent.timestamp).Sorted (· ≤ ·) := by
    rw [List.Sorted, List.pairwise_map]
    exact hs1
  have hs2m : (l2.map CollisionEvent.timestamp).Sorted (· ≤ ·) := by
    rw [List.Sorted, List.pairwise_map]
    exact hs2
  exact List.eq_of_perm_of_sorted hperm hs1m hs2m

/-- Witness for `collision_events_ascending` at the concrete gathered
list `gatheredX`, which is itself a valid `std::sort` output. -/
theorem collision_events_ascending_witness :
    gatheredX.Pairwise (fun a b => a.timestamp ≤ b.timestamp) ∧
    gatheredX.map CollisionEvent.timestamp =
      gatheredX.map CollisionEvent.timestamp ∧
    gatheredX.Perm (GatherCollisionEvents ctOne 0 [lootX] [officeX] ⟨0, 0⟩ ⟨10, 0⟩) :=
  collision_events_ascending ctOne 0 [lootX] [officeX] ⟨0, 0⟩ ⟨10, 0⟩
    gatheredX gatheredX ⟨by decide, by decide⟩ ⟨by decide, by decide⟩

theorem FindLootItem_RemoveLootItem (l : List LootItem) (i : ℤ) :
    FindLootItem (RemoveLootItem l i) i = none := by
  apply List.find?_eq_none.mpr
  intro item hmem
  simp only [RemoveLootItem, List.mem_filter, decide_eq_true_eq] at hmem
  simp [hmem.2]

theorem find_loot_perm (l : List LootItem) (i : ℤ) (item : LootItem)
    (hnd : (l.map LootItem.id).Nodup) (hf : FindLootItem l i = some item) :
    l.Perm (item :: RemoveLootItem l i) := by
  induction l with
  | nil => simp [FindLootItem] at hf
  | cons hd tl ih =>
    by_cases hEq : hd.id = i
    · rw [FindLootItem, List.find?_cons_of_pos _ (by simp [hEq])] at hf
      have hhd : hd = item := by injection hf
      subst hhd
      have hrm : RemoveLootItem (hd :: tl) i = tl := by
        simp only [RemoveLootItem, List.filter_cons]
        rw [if_neg (by simp [hEq])]
        apply List.filter_eq_self.mpr
        intro x hx
        simp only [decide_eq_true_eq]
        intro hxi
        simp only [List.map_cons, List.nodup_cons, List.mem_map] at hnd
        exact hnd.1 ⟨x, hx, by rw [hxi, hEq]⟩
      rw [hrm]
    · rw [FindLootItem, List.find?_cons_of_neg _ (by simp [hEq])] at hf
      have hnd2 : (tl.map LootItem.id).Nodup := by
        simp only [List.map_cons, List.nodup_cons] at hnd
        exact hnd.2
      have ihp := ih hnd2 hf
      have hrm : RemoveLootItem (hd :: tl) i = hd :: RemoveLootItem tl i := by
        simp [RemoveLootItem, List.filter_cons, hEq]
      rw [hrm]
      have h1 : (hd :: tl).Perm (hd :: item :: RemoveLootItem tl i) := ihp.cons hd
      have h2 : (hd :: item :: RemoveLootItem tl i).Perm
          (item :: hd :: RemoveLootItem tl i) := List.Perm.swap item hd _
      exact h1.trans h2

theorem remove_value_sum (l : List LootItem) (i : ℤ) (item : LootItem)
    (hnd : (l.map LootItem.id).Nodup) (hf : FindLootItem l i = some item) :
    (l.map LootItem.value).sum =
      item.value + ((RemoveLootItem l i).map LootItem.value).sum := by
  have hp := (find_loot_perm l i item hnd hf).map LootItem.value
  have := hp.sum_eq
  simpa using this

theorem remove_ids_nodup (l : List LootItem) (i : ℤ)
    (hnd : (l.map LootItem.id).Nodup) :
    ((RemoveLootItem l i).map LootItem.id).Nodup := by
  apply List.Nodup.sublist _ hnd
  exact (List.filter_sublist l).map LootItem.id

theorem TotalValue_step (st : CollisionState) (e : CollisionEvent)
    (hnd : (st.loot.map LootItem.id).Nodup) :
    TotalValue (ApplyCollisionEvent st e) = TotalValue st ∧
    ((ApplyCollisionEvent st e).loot.map LootItem.id).Nodup := by
  obtain ⟨ty, t, d, iid?, ity?⟩ := e
  cases ty with
  | itemPickup =>
    by_cases hfull : IsBagFull st
    · simp [ApplyCollisionEvent, hfull, hnd]
    · cases hiid : iid? with
      | none => simp [ApplyCollisionEvent, hfull, hnd]
      | some iid =>
        cases hfind : FindLootItem st.loot iid with
        | none => simp [ApplyCollisionEvent, hfull, hfind, hnd]
        | some item =>
          have hsum := remove_value_sum st.loot iid item hnd hfind
          constructor
          · simp only [ApplyCollisionEvent, hfull, Bool.false_eq_true, if_neg,
              ite_false, hfind, TotalValue, List.map_append, List.sum_append,
              List.map_cons, List.map_nil, List.sum_cons, List.sum_nil]
            have hid : item.id = iid := by
              have := List.find?_some hfind
              simpa using this
            rw [hid, hsum]
            ring
          · simp only [ApplyCollisionEvent, hfull, Bool.false_eq_true, if_neg,
              ite_false, hfind]
            exact remove_ids_nodup st.loot item.id hnd
  | officeReturn =>
    constructor
    · simp only [ApplyCollisionEvent, TotalValue, List.map_nil, List.sum_nil]
      ring
    · simpa [ApplyCollisionEvent] using hnd
  | itemSkip => simp [ApplyCollisionEvent, hnd]

theorem TotalValue_events (st : CollisionState) (events : List CollisionEvent)
    (hnd : (st.loot.map LootItem.id).Nodup) :
    TotalValue (ApplyCollisionEvents st events) = TotalValue st := by
  induction events generalizing st with
  | nil => rfl
  | cons e es ih =>
    have hstep := TotalValue_step st e hnd
    calc TotalValue (ApplyCollisionEvents st (e :: es))
        = TotalValue (ApplyCollisionEvents (ApplyCollisionEvent st e) es) := rfl
      _ = TotalValue (ApplyCollisionEvent st e) := ih _ hstep.2
      _ = TotalValue st := hstep.1

/-- C4: behaviour of the event-application loop: a pickup with a non-full
bag appends the still-present item to the bag and removes it from the map so
that no later event of the tick can find it; a pickup with a full bag is a
no-op; an office return credits every bag item's value to the score and
empties the bag; and across any event sequence the total value
`score + bag + map loot` is conserved, so the score increase of a tick is
exactly the value of the items (picked up or already held) that were
returned at an office. -/
theorem collision_event_effects :
    (∀ (st : CollisionState) (e : CollisionEvent) (iid : ℤ) (item : LootItem),
        e.type = CollisionEventType.itemPickup → IsBagFull st = false →
        e.item_id = some iid → FindLootItem st.loot iid = some item →
        ApplyCollisionEvent st e =
          { st with bag := st.bag ++ [item],
                    loot := RemoveLootItem st.loot item.id } ∧
        FindLootItem (ApplyCollisionEvent st e).loot iid = none) ∧
    (∀ (st : CollisionState) (e : CollisionEvent),
        e.type = CollisionEventType.itemPickup → IsBagFull st = true →
        ApplyCollisionEvent st e = st) ∧
    (∀ (st : CollisionState) (e : CollisionEvent),
        e.type = CollisionEventType.officeReturn →
        ApplyCollisionEvent st e =
          { st with score := st.score + (st.bag.map LootItem.value).sum,
                    bag := [] }) ∧
    (∀ (st : CollisionState) (events : List CollisionEvent),
        (st.loot.map LootItem.id).Nodup →
        TotalValue (ApplyCollisionEvents st events) = TotalValue st) := by
  refine ⟨?_, ?_, ?_, TotalValue_events⟩
  · intro st e iid item hty hfull hiid hfind
    obtain ⟨ty, t, d, iid?, ity?⟩ := e
    simp only at hty hiid
    subst hty hiid
    have hid : item.id = iid := by
      have := List.find?_some hfind
      simpa using this
    constructor
    · simp [ApplyCollisionEvent, hfull, hfind]
    · simp only [ApplyCollisionEvent, hfull, Bool.false_eq_true, if_neg,
        ite_false, hfind]
      rw [← hid]
      exact FindLootItem_RemoveLootItem st.loot item.id
  · intro st e hty hfull
    obtain ⟨ty, t, d, iid?, ity?⟩ := e
    simp only at hty
    subst hty
    simp [ApplyCollisionEvent, hfull]
  · intro st e hty
    obtain ⟨ty, t, d, iid?, ity?⟩ := e
    simp only at hty
    subst hty
    simp [ApplyCollisionEvent]

/-- Witness for `collision_event_effects` on a concrete one-item pickup
followed by an office return: the item moves into the bag and its value is
then credited, conserving the total value. -/
theorem collision_event_effects_witness :
    (ApplyCollisionEvent ⟨[], 1, 0, [lootX]⟩
        ⟨CollisionEventType.itemPickup, 1, 0, some 0, some 1⟩ =
      { bag := [lootX], bag_capacity := 1, score := 0, loot := [] } ∧
      FindLootItem (ApplyCollisionEvent ⟨[], 1, 0, [lootX]⟩
        ⟨CollisionEventType.itemPickup, 1, 0, some 0, some 1⟩).loot 0 = none) ∧
    ApplyCollisionEvent ⟨[lootX], 1, 5, []⟩
        ⟨CollisionEventType.itemPickup, 1, 0, some 0, some 1⟩ =
      ⟨[lootX], 1, 5, []⟩ ∧
    ApplyCollisionEvent ⟨[lootX], 1, 5, []⟩
        ⟨CollisionEventType.officeReturn, 1, 0, none, none⟩ =
      { bag := [], bag_capacity := 1, score := 5 + 10, loot := [] } ∧
    TotalValue (ApplyCollisionEvents ⟨[], 1, 0, [lootX]⟩
        [⟨CollisionEventType.itemPickup, 1, 0, some 0, some 1⟩,
         ⟨CollisionEventType.officeReturn, 1, 0, none, none⟩]) =
      TotalValue ⟨[], 1, 0, [lootX]⟩ := by
  refine ⟨?_, ?_, ?_, ?_⟩
  · have h := collision_event_effects.1 ⟨[], 1, 0, [lootX]⟩
      ⟨CollisionEventType.itemPickup, 1, 0, some 0, some 1⟩ 0 lootX rfl (by decide)
      rfl (by decide)
    refine ⟨?_, h.2⟩
    rw [h.1]
    decide
  · exact collision_event_effects.2.1 ⟨[lootX], 1, 5, []⟩
      ⟨CollisionEventType.itemPickup, 1, 0, some 0, some 1⟩ rfl (by decide)
  · have h := collision_event_effects.2.2.1 ⟨[lootX], 1, 5, []⟩
      ⟨CollisionEventType.officeReturn, 1, 0, none, none⟩ rfl
    rw [h]
    simp [lootX]
  · exact collision_event_effects.2.2.2 ⟨[], 1, 0, [lootX]⟩ _ (by decide)

theorem bag_step (st : CollisionState) (e : CollisionEvent)
    (h : st.bag.length ≤ st.bag_capacity) :
    (ApplyCollisionEvent st e).bag.length ≤ st.bag_capacity ∧
    (ApplyCollisionEvent st e).bag_capacity = st.bag_capacity := by
  obtain ⟨ty, t, d, iid?, ity?⟩ := e
  cases ty with
  | itemPickup =>
    by_cases hfull : IsBagFull st
    · simp [ApplyCollisionEvent, hfull, h]
    · cases hiid : iid? with
      | none => simp [ApplyCollisionEvent, hfull, h]
      | some iid =>
        cases hfind : FindLootItem st.loot iid with
        | none => simp [ApplyCollisionEvent, hfull, hfind, h]
        | some item =>
          have hlt : st.bag.length < st.bag_capacity := by
            simpa [IsBagFull, Nat.lt_iff_add_one_le, Nat.not_le] using hfull
          constructor
          · simp only [ApplyCollisionEvent, hfull, Bool.false_eq_true, if_neg,
              ite_false, hfind, List.length_append, List.length_cons,
              List.length_nil]
            omega
          · simp [ApplyCollisionEvent, hfull, hfind]
  | officeReturn => simp [ApplyCollisionEvent]
  | itemSkip => simp [ApplyCollisionEvent, h]

theorem bag_events (st : CollisionState) (events : List CollisionEvent)
    (h : st.bag.length ≤ st.bag_capacity) :
    (ApplyCollisionEvents st events).bag.length ≤ st.bag_capacity ∧
    (ApplyCollisionEvents st events).bag_capacity = st.bag_capacity := by
  induction events generalizing st with
  | nil => exact ⟨h, rfl⟩
  | cons e es ih =>
    have hstep := bag_step st e h
    have hrec := ih (ApplyCollisionEvent st e) (hstep.2 ▸ hstep.1)
    exact ⟨hstep.2 ▸ hrec.1, (hrec.2.trans hstep.2)⟩

theorem map_set_invariant {α β : Type} (f : α → β) (l : List α) (i : ℕ)
    (a b : α) (h : l[i]? = some a) (hfb : f b = f a) :
    (l.set i b).map f = l.map f := by
  induction l generalizing i with
  | nil => simp at h
  | cons hd tl ih =>
    cases i with
    | zero =>
      simp only [List.getElem?_cons_zero, Option.some.injEq] at h
      subst h
      simp [List.set, hfb]
    | succ n =>
      simp only [List.getElem?_cons_succ] at h
      simp [List.set, ih n h]

/-- C5: the bag bound `|bag| ≤ capacity` established at join is preserved:
the event loop of a tick never grows the bag beyond the capacity (and never
changes the capacity), `SetPlayerAction` leaves every dog's bag and capacity
untouched, and a successful join creates the new dog with an empty bag and
the bag capacity of its map. -/
theorem bag_capacity_invariant :
    (∀ (st : CollisionState) (events : List CollisionEvent),
        st.bag.length ≤ st.bag_capacity →
        (ApplyCollisionEvents st events).bag.length ≤
          (ApplyCollisionEvents st events).bag_capacity) ∧
    (∀ (st : AppState) (player : Player) (move : String) (now : ℤ),
        (SetPlayerAction st player move now).2.dogs.map
            (fun d => (d.bag, d.bag_capacity)) =
          st.dogs.map fun d => (d.bag, d.bag_capacity)) ∧
    (∀ (st : AppState) (un mid tok : String) (now : ℤ) (res : String × ℕ)
        (st2 : AppState), JoinGame st un mid tok now = some (res, st2) →
        ∃ m, FindMap st mid = some m ∧
          st2.dogs = st.dogs ++
            [{ id := st.next_dog_id, name := un, map_id := mid,
               pos := GetDefaultDogPosition m, vel := ⟨0, 0⟩,
               dir := Direction.north, bag := [],
               bag_capacity := m.bag_capacity, score := 0 }]) := by
  refine ⟨?_, ?_, ?_⟩
  · intro st events h
    have hb := bag_events st events h
    rw [hb.2]
    exact hb.1
  · intro st player move now
    rcases hdi : FindDogIndex st player.dog_id with _ | di
    · simp [SetPlayerAction, hdi]
    rcases hdog : st.dogs[di]? with _ | dog
    · simp [SetPlayerAction, hdi, hdog]
    rcases hm : FindMap st player.map_id with _ | gm
    · simp [SetPlayerAction, hdi, hdog, hm]
    simp only [SetPlayerAction, hdi, hdog, hm]
    split
    · rfl
    · exact map_set_invariant _ st.dogs di dog _ hdog rfl
  · intro st un mid tok now res st2 h
    cases hm : FindMap st mid with
    | none => simp [JoinGame, hm] at h
    | some m =>
      by_cases hn : un = ""
      · simp [JoinGame, hm, hn] at h
      · refine ⟨m, rfl, ?_⟩
        simp only [JoinGame, hm, hn, if_neg, ite_false] at h
        obtain ⟨-, h2⟩ := Prod.mk.injEq .. ▸ Option.some.inj h
        rw [← h2]

/-- Witness for `bag_capacity_invariant`: the concrete pickup tick keeps the
bag within capacity, the concrete join scenario produces A's dog with an
empty bag and the map's capacity, and a concrete action call preserves the
bags. -/
theorem bag_capacity_invariant_witness :
    (ApplyCollisionEvents ⟨[], 1, 0, [lootX]⟩
        [⟨CollisionEventType.itemPickup, 1, 0, some 0, some 1⟩]).bag.length ≤
      (ApplyCollisionEvents ⟨[], 1, 0, [lootX]⟩
        [⟨CollisionEventType.itemPickup, 1, 0, some 0, some 1⟩]).bag_capacity ∧
    (SetPlayerAction stW playerW "L" 7).2.dogs.map
        (fun d => (d.bag, d.bag_capacity)) =
      stW.dogs.map (fun d => (d.bag, d.bag_capacity)) ∧
    ∃ m, FindMap st0 "m" = some m ∧
      stA.dogs = st0.dogs ++
        [{ id := st0.next_dog_id, name := "A", map_id := "m",
           pos := GetDefaultDogPosition m, vel := ⟨0, 0⟩,
           dir := Direction.north, bag := [],
           bag_capacity := m.bag_capacity, score := 0 }] :=
  ⟨bag_capacity_invariant.1 ⟨[], 1, 0, [lootX]⟩ _ (by decide),
   bag_capacity_invariant.2.1 stW playerW "L" 7,
   bag_capacity_invariant.2.2 st0 "A" "m" "tokA" 0 ("tokA", 0) stA (by decide)⟩

theorem SeedLootItems_ids (n : ℤ) :
    (SeedLootItems n).map LootItem.id = (List.range 5).map (fun k : ℕ => n + (k : ℤ)) := by
  simp [SeedLootItems, List.map_map]

theorem NewLootIds_eq (ms : List GameMap) (n : ℤ) :
    NewLootIds ms n =
      (List.range (5 * ms.countP (fun m => m.loot.isEmpty))).map
        (fun k : ℕ => n + (k : ℤ)) := by
  induction ms generalizing n with
  | nil => simp [NewLootIds]
  | cons hd tl ih =>
    by_cases hhd : hd.loot.isEmpty
    · rw [NewLootIds, if_pos hhd, ih (n + 5), SeedLootItems_ids,
        List.countP_cons_of_pos (fun m : GameMap => m.loot.isEmpty) tl hhd,
        show 5 * ((tl.countP fun m => m.loot.isEmpty) + 1) =
          5 + 5 * (tl.countP fun m => m.loot.isEmpty) by ring,
        List.range_add, List.map_append, List.map_map]
      congr 1
      apply List.map_congr_left
      intro k _
      simp only [Function.comp_apply]
      push_cast
      ring
    · rw [NewLootIds, if_neg hhd, ih n, List.countP_cons_of_neg (fun m : GameMap => m.loot.isEmpty) tl hhd]

theorem GenerateLootItems_length (ms : List GameMap) (n : ℤ) :
    (GenerateLootItems ms n).1.length = ms.length := by
  induction ms generalizing n with
  | nil => rfl
  | cons hd tl ih =>
    by_cases hhd : hd.loot.isEmpty
    · simp [GenerateLootItems, hhd, ih]
    · simp [GenerateLootItems, hhd, ih]

theorem GenerateLootItems_counter (ms : List GameMap) (n : ℤ) :
    (GenerateLootItems ms n).2 =
      n + 5 * (ms.countP (fun m => m.loot.isEmpty) : ℤ) := by
  induction ms generalizing n with
  | nil => simp [GenerateLootItems]
  | cons hd tl ih =>
    by_cases hhd : hd.loot.isEmpty
    · rw [GenerateLootItems, if_pos hhd]
      simp only [ih (n + 5), List.countP_cons_of_pos (fun m : GameMap => m.loot.isEmpty) tl hhd]
      push_cast
      ring
    · rw [GenerateLootItems, if_neg hhd]
      simp only [ih n, List.countP_cons_of_neg (fun m : GameMap => m.loot.isEmpty) tl hhd]

theorem GenerateLootItems_get (ms : List GameMap) (n : ℤ) (i : ℕ) (m : GameMap)
    (h : ms[i]? = some m) :
    (¬ m.loot.isEmpty = true → (GenerateLootItems ms n).1[i]? = some m) ∧
    (m.loot.isEmpty = true → (GenerateLootItems ms n).1[i]? =
      some { m with loot := m.loot ++
              (SeedLootItems
                (n + 5 * ((ms.take i).countP (fun m2 => m2.loot.isEmpty) : ℤ))) }) := by
  induction ms generalizing n i with
  | nil => simp at h
  | cons hd tl ih =>
    cases i with
    | zero =>
      simp only [List.getElem?_cons_zero, Option.some.injEq] at h
      subst h
      constructor
      · intro hne
        rw [GenerateLootItems, if_neg hne]
        simp
      · intro he
        rw [GenerateLootItems, if_pos he]
        simp
    | succ j =>
      simp only [List.getElem?_cons_succ] at h
      constructor
      · intro hne
        by_cases hhd : hd.loot.isEmpty
        · rw [GenerateLootItems, if_pos hhd]
          simpa using (ih (n + 5) j h).1 hne
        · rw [GenerateLootItems, if_neg hhd]
          simpa using (ih n j h).1 hne
      · intro he
        by_cases hhd : hd.loot.isEmpty
        · rw [GenerateLootItems, if_pos hhd]
          have hrec := (ih (n + 5) j h).2 he
          simp only [List.getElem?_cons_succ, List.take_succ_cons,
            List.countP_cons_of_pos (fun m2 : GameMap => m2.loot.isEmpty)
              (tl.take j) hhd]
          rw [hrec]
          congr 3
          push_cast
          ring_nf
        · rw [GenerateLootItems, if_neg hhd]
          have hrec := (ih n j h).2 he
          simp only [List.getElem?_cons_succ, List.take_succ_cons,
            List.countP_cons_of_neg (fun m2 : GameMap => m2.loot.isEmpty)
              (tl.take j) hhd]
          exact hrec

theorem NewLootIds_link (ms : List GameMap) (n : ℤ) :
    NewLootIds ms n = ((GenerateLootItems ms n).1.zip ms).flatMap
      (fun p => if p.2.loot.isEmpty then p.1.loot.map LootItem.id else []) := by
  induction ms generalizing n with
  | nil => rfl
  | cons hd tl ih =>
    by_cases hhd : hd.loot.isEmpty
    · rw [NewLootIds, if_pos hhd, GenerateLootItems, if_pos hhd]
      have hnil : hd.loot = [] := List.isEmpty_iff.mp hhd
      simp [List.zip_cons_cons, List.flatMap_cons, hhd, hnil, ih (n + 5)]
    · rw [NewLootIds, if_neg hhd, GenerateLootItems, if_neg hhd]
      simp [List.zip_cons_cons, List.flatMap_cons, hhd, ih n]

/-- C6 counterexample: on a map whose (first and only) road runs from
`(0,0)` to `(5,0)`, the generator spawns its five items at the hard-coded
positions `(10+5i, 10)`, and the first of them does not lie on the map's
first road, contradicting the claimed "seed positions along that map's
first road". -/
theorem generate_loot_positions_counterexample :
    ((GenerateLootItems [mapM0] 0).1.map fun m => m.loot.map LootItem.pos) =
      [[⟨10, 10⟩, ⟨15, 10⟩, ⟨20, 10⟩, ⟨25, 10⟩, ⟨30, 10⟩]] ∧
    mapM0.roads = [⟨RoadOrient.horizontal, ⟨0, 0⟩, 5⟩] ∧
    OnRoadStrip ⟨RoadOrient.horizontal, ⟨0, 0⟩, 5⟩ ⟨10, 10⟩ = false := by
  refine ⟨?_, rfl, ?_⟩
  · simp only [GenerateLootItems, mapM0, List.isEmpty_nil, if_true, ite_true,
      SeedLootItems, List.range_succ, List.range_zero]
    norm_num
  · simp only [OnRoadStrip]
    norm_num

/-- C6 (amended): at the end of every tick, every map whose loot set is
empty receives exactly the five seed items with loot-type index 1 and value
10.0 at the fixed positions `(10 + 5 i, 10)` — positions independent of the
map's roads — while non-empty maps are untouched; the item ids are drawn
from the process-wide counter, which advances by five per refilled map, and
one pass hands out exactly the consecutive ids `n, n+1, …` (all fresh,
never reissued, and pairwise distinct). -/
theorem generate_loot_spec (ms : List GameMap) (n : ℤ) :
    (GenerateLootItems ms n).1.length = ms.length ∧
    (GenerateLootItems ms n).2 =
      n + 5 * (ms.countP (fun m => m.loot.isEmpty) : ℤ) ∧
    (∀ (i : ℕ) (m : GameMap), ms[i]? = some m → ¬ m.loot.isEmpty = true →
        (GenerateLootItems ms n).1[i]? = some m) ∧
    (∀ (i : ℕ) (m : GameMap), ms[i]? = some m → m.loot.isEmpty = true →
        (GenerateLootItems ms n).1[i]? = some { m with loot := m.loot ++
              (SeedLootItems
                (n + 5 * ((ms.take i).countP (fun m2 => m2.loot.isEmpty) : ℤ))) }) ∧
    (∀ c : ℤ, (SeedLootItems c).length = 5 ∧
        ∀ it ∈ SeedLootItems c, it.type = 1 ∧ it.value = 10 ∧
          ∃ k : ℕ, k < 5 ∧ it.pos = ⟨10 + 5 * (k : ℚ), 10⟩ ∧ it.id = c + k) ∧
    NewLootIds ms n = ((GenerateLootItems ms n).1.zip ms).flatMap
      (fun p => if p.2.loot.isEmpty then p.1.loot.map LootItem.id else []) ∧
    NewLootIds ms n =
      (List.range (5 * ms.countP (fun m => m.loot.isEmpty))).map
        (fun k : ℕ => n + (k : ℤ)) ∧
    (NewLootIds ms n).Nodup := by
  refine ⟨GenerateLootItems_length ms n, GenerateLootItems_counter ms n,
    fun i m h => (GenerateLootItems_get ms n i m h).1,
    fun i m h => (GenerateLootItems_get ms n i m h).2, ?_,
    NewLootIds_link ms n, NewLootIds_eq ms n, ?_⟩
  · intro c
    refine ⟨by simp [SeedLootItems], ?_⟩
    intro it hit
    simp only [SeedLootItems, List.mem_map, List.mem_range] at hit
    obtain ⟨k, hk, hkeq⟩ := hit
    subst hkeq
    exact ⟨rfl, rfl, k, hk, rfl, rfl⟩
  · rw [NewLootIds_eq ms n]
    exact (List.nodup_range _).map fun a b hab => by omega

/-- Witness for `generate_loot_spec` at the single-map scenario: the empty
map receives the seed loot starting at counter 0 and the pass hands out the
ids 0–4. -/
theorem generate_loot_spec_witness :
    (GenerateLootItems [mapM0] 0).1.length = 1 ∧
    (GenerateLootItems [mapM0] 0).1[0]? =
      some { mapM0 with loot := mapM0.loot ++
              (SeedLootItems
                (0 + 5 * ((([mapM0] : List GameMap).take 0).countP
                  (fun m2 => m2.loot.isEmpty) : ℤ))) } ∧
    NewLootIds [mapM0] 0 =
      (List.range (5 * ([mapM0] : List GameMap).countP
        (fun m => m.loot.isEmpty))).map (fun k : ℕ => (0 : ℤ) + (k : ℤ)) := by
  have h := generate_loot_spec [mapM0] 0
  exact ⟨h.1, h.2.2.2.1 0 mapM0 rfl (by decide), h.2.2.2.2.2.2.1⟩

/-- C7 counterexample: on a map whose dog-speed is 0, the movement command
"L" succeeds but produces zero velocity, so the code takes the stop branch
of the idle bookkeeping and keeps the already-set idle-start time instead of
clearing it: a successful movement command does not always clear the
idle-start time. -/
theorem set_action_zero_speed_counterexample :
    (SetPlayerAction stZ playerZ "L" 99).1 = true ∧
    (mapFind 0 (SetPlayerAction stZ playerZ "L" 99).2.player_metadata).map
      PlayerMetadata.idle_start_time = some (some 5) ∧
    (some (some 5) : Option (Option ℤ)) ≠ some none := by
  refine ⟨by decide, by decide, by decide⟩

/-- C7 (amended): given the player's dog, map and live metadata,
`SetPlayerAction` succeeds exactly for the five move strings and fails,
leaving the state unchanged, for any other string; each letter sets the
velocity to the map's dog-speed in its direction with the matching facing;
the empty string zeroes the velocity and preserves the facing and sets the
idle-start time to now if unset; and provided the map's dog-speed is
nonzero, a movement command clears the idle-start time. -/
theorem set_player_action_spec (st : AppState) (player : Player) (di : ℕ)
    (dog : Dog) (gm : GameMap) (m : PlayerMetadata) (now : ℤ)
    (hdi : FindDogIndex st player.dog_id = some di)
    (hdog : st.dogs[di]? = some dog)
    (hgm : FindMap st player.map_id = some gm)
    (hm : mapFind player.id st.player_metadata = some m)
    (hret : m.is_retired = false)
    (hs : gm.dog_speed ≠ 0) :
    (∀ move : String, move ∉ (["L", "R", "U", "D", ""] : List String) →
        SetPlayerAction st player move now = (false, st)) ∧
    SetPlayerAction st player "L" now = (true,
      { st with
        dogs := (st.dogs.set di { dog with vel := ⟨-gm.dog_speed, 0⟩, dir := Direction.west }),
        player_metadata := (mapInsert player.id { m with idle_start_time := none } st.player_metadata) }) ∧
    SetPlayerAction st player "R" now = (true,
      { st with
        dogs := (st.dogs.set di { dog with vel := ⟨gm.dog_speed, 0⟩, dir := Direction.east }),
        player_metadata := (mapInsert player.id { m with idle_start_time := none } st.player_metadata) }) ∧
    SetPlayerAction st player "U" now = (true,
      { st with
        dogs := (st.dogs.set di { dog with vel := ⟨0, -gm.dog_speed⟩, dir := Direction.north }),
        player_metadata := (mapInsert player.id { m with idle_start_time := none } st.player_metadata) }) ∧
    SetPlayerAction st player "D" now = (true,
      { st with
        dogs := (st.dogs.set di { dog with vel := ⟨0, gm.dog_speed⟩, dir := Direction.south }),
        player_metadata := (mapInsert player.id { m with idle_start_time := none } st.player_metadata) }) ∧
    SetPlayerAction st player "" now = (true,
      { st with
        dogs := (st.dogs.set di { dog with vel := ⟨0, 0⟩, dir := dog.dir }),
        player_metadata := (match m.idle_start_time with
          | some _ => st.player_metadata
          | none => mapInsert player.id { m with idle_start_time := some now }
              st.player_metadata) }) := by
  have hspeed : GetDogSpeedForMap st player.map_id = gm.dog_speed := by
    simp [GetDogSpeedForMap, hgm]
  refine ⟨?_, ?_, ?_, ?_, ?_, ?_⟩
  · intro move hmv
    simp only [List.mem_cons, List.not_mem_nil, or_false, not_or] at hmv
    obtain ⟨hL, hR, hU, hD, hE⟩ := hmv
    simp [SetPlayerAction, hdi, hdog, hgm, hL, hR, hU, hD, hE]
  · simp [SetPlayerAction, hdi, hdog, hgm, hspeed, hm, hret, neg_eq_zero, hs]
  · simp [SetPlayerAction, hdi, hdog, hgm, hspeed, hm, hret, hs]
  · simp [SetPlayerAction, hdi, hdog, hgm, hspeed, hm, hret, neg_eq_zero, hs]
  · simp [SetPlayerAction, hdi, hdog, hgm, hspeed, hm, hret, hs]
  · rcases hidle : m.idle_start_time with _ | t
    · simp [SetPlayerAction, hdi, hdog, hgm, hspeed, hm, hret, hidle]
    · simp [SetPlayerAction, hdi, hdog, hgm, hspeed, hm, hret, hidle]

/-- Witness for `set_player_action_spec` on the concrete one-player session
`stW` (dog-speed 4): an unknown move fails and leaves the state unchanged,
while "L" succeeds and clears the recorded idle-start time. -/
theorem set_player_action_spec_witness :
    SetPlayerAction stW playerW "X" 7 = (false, stW) ∧
    (SetPlayerAction stW playerW "L" 7).1 = true ∧
    (mapFind 0 (SetPlayerAction stW playerW "L" 7).2.player_metadata).map
      PlayerMetadata.idle_start_time = some none := by
  have h := set_player_action_spec stW playerW 0 dogW mapW ⟨0, some 5, false⟩ 7
    (by decide) (by decide) (by decide) (by decide) rfl (by norm_num [mapW])
  refine ⟨h.1 "X" (by decide), ?_, ?_⟩
  · rw [h.2.1]
  · rw [h.2.1]
    decide

/-- C8 counterexample: at `play_time_seconds = 1.2345` the stored value is
1234 — the scaled value 1234.5 truncated toward zero — while rounding to the
nearest integer gives 1235: the append does not round. -/
theorem add_retired_player_round_counterexample :
    (AddRetiredPlayer [] "A" 0 (2469/2000)).map RetiredPlayerRow.play_time_ms =
      [1234] ∧
    round ((2469 : ℚ) / 2000 * 1000) = 1235 ∧ (1234 : ℤ) ≠ 1235 := by
  refine ⟨?_, ?_, by decide⟩
  · unfold AddRetiredPlayer CppTruncToInt
    rw [if_pos (by norm_num)]
    simp only [List.nil_append, List.map_cons, List.map_nil, List.cons.injEq,
      and_true]
    rw [show (2469 : ℚ) / 2000 * 1000 = 2469/2 by norm_num, Int.floor_eq_iff]
    norm_num
  · rw [round_eq, show (2469 : ℚ) / 2000 * 1000 = 2469/2 by norm_num,
      Int.floor_eq_iff]
    norm_num

/-- C8 (amended): the records-sink append stores
`play_time_ms = trunc(play_time_seconds · 1000)` (truncation toward zero,
i.e. the floor for the nonnegative durations that arise), not the value
rounded to the nearest integer. -/
theorem add_retired_player_truncates (rows : List RetiredPlayerRow)
    (name : String) (score : ℤ) (s : ℚ) (hs : 0 ≤ s) :
    AddRetiredPlayer rows name score s = rows ++ [⟨name, score, ⌊s * 1000⌋⟩] := by
  unfold AddRetiredPlayer CppTruncToInt
  rw [if_pos (by positivity)]

/-- Witness for `add_retired_player_truncates` at 1.5 seconds: the stored
millisecond value is 1500. -/
theorem add_retired_player_truncates_witness :
    AddRetiredPlayer [] "B" 2 (3/2) = [⟨"B", 2, 1500⟩] := by
  have h := add_retired_player_truncates [] "B" 2 (3/2) (by norm_num)
  rw [h]
  norm_num

theorem fct_cases (s e t : RPoint) (r : ℝ) (u : ℝ)
    (h : FindCollisionTime s e t r = some u) :
    (hypotR (e.x - s.x) (e.y - s.y) < 1e-9 ∧ u = 0 ∧
      hypotR (t.x - s.x) (t.y - s.y) ≤ r) ∨
    (¬ hypotR (e.x - s.x) (e.y - s.y) < 1e-9 ∧
      ∃ dtc : ℝ, 0 ≤ dtc ∧ dtc ≤ hypotR (e.x - s.x) (e.y - s.y) ∧
        u = dtc / hypotR (e.x - s.x) (e.y - s.y)) := by
  simp only [FindCollisionTime] at h
  by_cases h1 : hypotR (e.x - s.x) (e.y - s.y) < 1e-9
  · rw [if_pos h1] at h
    split at h
    · exact Or.inl ⟨h1, (Option.some.inj h).symm, by assumption⟩
    · exact Option.noConfusion h
  · rw [if_neg h1] at h
    refine Or.inr ⟨h1, ?_⟩
    repeat' split at h
    all_goals try exact Option.noConfusion h
    all_goals
      rename_i hor
      push_neg at hor
      exact ⟨_, hor.1, hor.2, (Option.some.inj h).symm⟩

theorem entry_point_on_circle (s e t : RPoint) (r u : ℝ)
    (h1 : ¬ hypotR (e.x - s.x) (e.y - s.y) < 1e-9)
    (hp0 : 0 < segProjection s e t)
    (hpL : segProjection s e t < hypotR (e.x - s.x) (e.y - s.y))
    (h : FindCollisionTime s e t r = some u) :
    hypotR (t.x - (segPoint s e u).x) (t.y - (segPoint s e u).y) = r := by
  have hLpos : (0:ℝ) < hypotR (e.x - s.x) (e.y - s.y) :=
    lt_of_lt_of_le (by norm_num) (not_lt.mp h1)
  simp only [segProjection] at hp0 hpL
  simp only [FindCollisionTime] at h
  rw [if_neg h1] at h
  simp only [if_neg (not_le.mpr hp0), if_neg (not_le.mpr hpL)] at h
  set L := hypotR (e.x - s.x) (e.y - s.y) with hLdef
  have hL0 : L ≠ 0 := ne_of_gt hLpos
  have hLsq : L * L = (e.x - s.x) * (e.x - s.x) + (e.y - s.y) * (e.y - s.y) :=
    Real.mul_self_sqrt (add_nonneg (mul_self_nonneg _) (mul_self_nonneg _))
  set d1 := (e.x - s.x) / L with hd1
  set d2 := (e.y - s.y) / L with hd2
  have hd1L : d1 * L = e.x - s.x := div_mul_cancel₀ _ hL0
  have hd2L : d2 * L = e.y - s.y := div_mul_cancel₀ _ hL0
  have hunit : d1 * d1 + d2 * d2 = 1 := by
    have h2 : (d1 * d1 + d2 * d2) * (L * L) = 1 * (L * L) := by
      linear_combination (-1 : ℝ) * hLsq + (d1 * L + (e.x - s.x)) * hd1L +
        (d2 * L + (e.y - s.y)) * hd2L
    exact mul_right_cancel₀ (mul_ne_zero hL0 hL0) h2
  set P := (t.x - s.x) * d1 + (t.y - s.y) * d2 with hPdef
  split at h
  · exact Option.noConfusion h
  rename_i hDPle
  rw [not_lt] at hDPle
  split at h
  · exact Option.noConfusion h
  rename_i hor
  push_neg at hor
  have hu := Option.some.inj h
  set DP := hypotR (t.x - (s.x + d1 * P)) (t.y - (s.y + d2 * P)) with hDPdef
  set S := Real.sqrt (r * r - DP * DP) with hSdef
  have hDPnn : 0 ≤ DP := Real.sqrt_nonneg _
  have hrnn : 0 ≤ r := le_trans hDPnn hDPle
  have hrad : 0 ≤ r * r - DP * DP := by nlinarith [hDPnn, hDPle, hrnn]
  have hSsq : S * S = r * r - DP * DP := Real.mul_self_sqrt hrad
  have hDPsq : DP * DP =
      (t.x - (s.x + d1 * P)) * (t.x - (s.x + d1 * P)) +
      (t.y - (s.y + d2 * P)) * (t.y - (s.y + d2 * P)) :=
    Real.mul_self_sqrt (add_nonneg (mul_self_nonneg _) (mul_self_nonneg _))
  have huL : u * L = P - S := by
    rw [← hu]
    exact div_mul_cancel₀ _ hL0
  simp only [segPoint]
  have harg : (t.x - (s.x + u * (e.x - s.x))) * (t.x - (s.x + u * (e.x - s.x))) +
      (t.y - (s.y + u * (e.y - s.y))) * (t.y - (s.y + u * (e.y - s.y))) = r * r := by
    linear_combination hSsq + (-2*S) * hPdef + (S*S - 2*P*S) * hunit +
      (-1 : ℝ) * hDPsq +
      (u * (((t.x - s.x) - (P - S) * d1) + (t.x - (s.x + u * (e.x - s.x))))) * hd1L +
      (u * (((t.y - s.y) - (P - S) * d2) + (t.y - (s.y + u * (e.y - s.y))))) * hd2L +
      (-(d1 * (((t.x - s.x) - (P - S) * d1) + (t.x - (s.x + u * (e.x - s.x)))))
        - d2 * (((t.y - s.y) - (P - S) * d2) + (t.y - (s.y + u * (e.y - s.y))))) * huL
  show Real.sqrt _ = r
  rw [harg]
  exact Real.sqrt_mul_self hrnn

/-- C3 counterexample: with the dog moving from `(0,0)` to `(10,0)` and a
target at `(1/10, 0)` with radius `3/10`, the start point already lies
inside the target circle, yet `FindCollisionTime` returns no value (the
computed crossing lies behind the start): it neither reports `t = 0` for a
start inside the circle nor satisfies "no value iff the segment never comes
within the radius". -/
theorem find_collision_time_counterexample :
    FindCollisionTime ⟨0, 0⟩ ⟨10, 0⟩ ⟨1/10, 0⟩ (3/10) = none ∧
    hypotR ((1:ℝ)/10 - 0) ((0:ℝ) - 0) ≤ 3/10 := by
  have h100 : Real.sqrt 100 = 10 := by
    rw [show (100:ℝ) = 10 ^ 2 by norm_num]
    exact Real.sqrt_sq (by norm_num)
  have h9 : Real.sqrt (9/100) = 3/10 := by
    rw [show (9/100:ℝ) = (3/10) ^ 2 by norm_num]
    exact Real.sqrt_sq (by norm_num)
  have h1100 : Real.sqrt (1/100) = 1/10 := by
    rw [show (1/100:ℝ) = (1/10) ^ 2 by norm_num]
    exact Real.sqrt_sq (by norm_num)
  constructor
  · simp only [FindCollisionTime, hypotR]
    norm_num [h100, h9]
  · simp only [hypotR]
    norm_num [h1100]

/-- C3 (amended): `FindCollisionTime` behaves as follows. For a segment of
length below the `1e-9` threshold (in particular zero length) it returns
`t = 0` iff the start is within the collision radius of the target. Every
returned parameter lies in `[0, 1]`. When the segment is long enough and
the projection of the target falls strictly inside the segment, any
returned parameter marks a point at distance exactly the collision radius
from the target — the circle-entry point. However, when the crossing lies
behind the start (for instance when the start itself is already inside the
circle) or beyond the end, no value is returned. -/
theorem find_collision_time_spec (s e t : RPoint) (r : ℝ) :
    (hypotR (e.x - s.x) (e.y - s.y) < 1e-9 →
      (FindCollisionTime s e t r = some 0 ↔
        hypotR (t.x - s.x) (t.y - s.y) ≤ r)) ∧
    (∀ u : ℝ, FindCollisionTime s e t r = some u → 0 ≤ u ∧ u ≤ 1) ∧
    (∀ u : ℝ, ¬ hypotR (e.x - s.x) (e.y - s.y) < 1e-9 →
      0 < segProjection s e t →
      segProjection s e t < hypotR (e.x - s.x) (e.y - s.y) →
      FindCollisionTime s e t r = some u →
      hypotR (t.x - (segPoint s e u).x) (t.y - (segPoint s e u).y) = r) := by
  refine ⟨?_, ?_, fun u h1 h2 h3 h4 => entry_point_on_circle s e t r u h1 h2 h3 h4⟩
  · intro h1
    simp only [FindCollisionTime]
    rw [if_pos h1]
    split_ifs with hd
    · simp [hd]
    · simp [hd]
  · intro u hu
    rcases fct_cases s e t r u hu with ⟨-, hu0, -⟩ | ⟨h1, dtc, h0, hle, hueq⟩
    · subst hu0
      norm_num
    · subst hueq
      have hLpos : (0:ℝ) < hypotR (e.x - s.x) (e.y - s.y) :=
        lt_of_lt_of_le (by norm_num) (not_lt.mp h1)
      exact ⟨div_nonneg h0 hLpos.le, (div_le_one hLpos).mpr hle⟩

/-- Witness for `find_collision_time_spec`: the zero-length branch at the
origin, and the segment `(0,0)→(10,0)` against a target at `(5,0)` with
radius `3/10`, where the computed parameter `47/100` lies in `[0,1]` and
marks the entry point at distance exactly `3/10` from the target. -/
theorem find_collision_time_spec_witness :
    (FindCollisionTime ⟨0, 0⟩ ⟨0, 0⟩ ⟨0, 0⟩ 0 = some 0 ↔
      hypotR ((0:ℝ) - 0) ((0:ℝ) - 0) ≤ 0) ∧
    (0 ≤ (47/100 : ℝ) ∧ (47/100 : ℝ) ≤ 1) ∧
    hypotR ((5:ℝ) - (segPoint ⟨0, 0⟩ ⟨10, 0⟩ (47/100)).x)
      ((0:ℝ) - (segPoint ⟨0, 0⟩ ⟨10, 0⟩ (47/100)).y) = 3/10 := by
  have h100 : Real.sqrt 100 = 10 := by
    rw [show (100:ℝ) = 10 ^ 2 by norm_num]
    exact Real.sqrt_sq (by norm_num)
  have h9 : Real.sqrt (9/100) = 3/10 := by
    rw [show (9/100:ℝ) = (3/10) ^ 2 by norm_num]
    exact Real.sqrt_sq (by norm_num)
  have heval : FindCollisionTime ⟨0, 0⟩ ⟨10, 0⟩ ⟨5, 0⟩ (3/10) = some (47/100) := by
    simp only [FindCollisionTime, hypotR]
    norm_num [h100, h9]
  refine ⟨(find_collision_time_spec ⟨0, 0⟩ ⟨0, 0⟩ ⟨0, 0⟩ 0).1 ?_,
    (find_collision_time_spec ⟨0, 0⟩ ⟨10, 0⟩ ⟨5, 0⟩ (3/10)).2.1 (47/100) heval,
    (find_collision_time_spec ⟨0, 0⟩ ⟨10, 0⟩ ⟨5, 0⟩ (3/10)).2.2 (47/100)
      ?_ ?_ ?_ heval⟩
  · simp only [hypotR]
    norm_num
  · simp only [hypotR]
    norm_num [h100]
  · simp only [segProjection, hypotR]
    norm_num [h100]
  · simp only [segProjection, hypotR]
    norm_num [h100]

end GameServer
